import Mathlib

/-!
Verification development for the PDF-ChatBot repository (src/app.py).

The application is a retrieval-augmented PDF question-answering app.
Pure/stateful behaviour of src/app.py is embedded shallowly below:

* the process-wide embedder cache (`load_embeddings`, decorated with
  st.cache_resource) is state-passing over an explicit cache cell;
* `process_pdf` is a function of the outcomes of its fallible stages
  (temporary-file handling made explicit by a Boolean recording whether
  the staging file is still on disk at return);
* the Streamlit session (`main`) is a state machine over
  (vectorstore, messages) with one step function per button;
* the chunker, PDF loader and vector search delegated to third-party
  libraries (RecursiveCharacterTextSplitter, PyPDFLoader, FAISS) are
  modelled from the spec, as marked in their doc comments.
-/

/-! ## Chunker -/

/-- Modelled from the spec: chunking is delegated to the external
RecursiveCharacterTextSplitter library, whose code is not part of this
repository.  Spec section 4.2 defines the chunker as a greedy sliding
window: emit a window of width `size`, slide the start forward by
`size - overlap`, and once the remaining text is shorter than `size`
emit it as one final passage.  The first guard makes the recursion
total; the spec declares the configuration `overlap ≥ size` invalid
(`InvalidChunkConfig`), and it is never exercised by the program, which
uses size 1000 and overlap 100. -/
def chunkList (size overlap : Nat) (l : List Char) : List (List Char) :=
  if size ≤ overlap then [l]
  else if l.length < size then [l]
  else l.take size :: chunkList size overlap (l.drop (size - overlap))
termination_by l.length
decreasing_by
  simp only [List.length_drop]
  omega

/-- String-level chunker: split one page text into passages. -/
def chunkText (size overlap : Nat) (s : String) : List String :=
  (chunkList size overlap s.data).map String.mk

/-- Remove the declared overlap from every passage after the first and
concatenate, recovering the page text the passages were cut from. -/
def reassemble (overlap : Nat) : List (List Char) → List Char
  | [] => []
  | c :: cs => c ++ (cs.map (fun d => d.drop overlap)).flatten

/-- Variant of reassemble on strings. -/
def reassembleText (overlap : Nat) (ps : List String) : String :=
  String.mk (reassemble overlap (ps.map String.data))

theorem chunkList_join_drop (size overlap : Nat) (h : overlap < size) (m : List Char) :
    ((chunkList size overlap m).map (fun c => c.drop overlap)).flatten = m.drop overlap := by
  rw [chunkList]
  split
  · omega
  · split
    · simp
    · rename_i hso hlen
      rw [List.map_cons, List.flatten_cons]
      rw [chunkList_join_drop size overlap h (m.drop (size - overlap))]
      rw [List.drop_drop]
      have hsz : size ≤ m.length := le_of_not_lt hlen
      have hle : overlap ≤ size := le_of_lt h
      have h1 : size - overlap + overlap = size := by omega
      rw [h1]
      conv_rhs => rw [← List.take_append_drop size m]
      rw [List.drop_append_eq_append_drop]
      have h2 : overlap - (m.take size).length = 0 := by
        simp [List.length_take]
        omega
      rw [h2, List.drop_zero]
termination_by m.length
decreasing_by
  simp only [List.length_drop]
  omega

theorem reassemble_chunkList (size overlap : Nat) (h : overlap < size) (l : List Char) :
    reassemble overlap (chunkList size overlap l) = l := by
  rw [chunkList]
  split
  · omega
  · split
    · simp [reassemble]
    · rename_i hso hlen
      simp only [reassemble]
      rw [chunkList_join_drop size overlap h, List.drop_drop]
      have h1 : size - overlap + overlap = size := by omega
      rw [h1, List.take_append_drop]

/-- C4: for every page text and every configuration with
chunk_size > chunk_overlap ≥ 0, the chunker produces an ordered sequence
of passages whose concatenation, with the declared overlaps removed,
reconstructs the original page text exactly — no gaps and no duplication
beyond the declared overlap. -/
theorem chunker_roundtrip (size overlap : Nat) (s : String) (h : overlap < size) :
    reassembleText overlap (chunkText size overlap s) = s := by
  unfold reassembleText chunkText
  rw [List.map_map]
  have hid : (String.data ∘ String.mk) = id := rfl
  rw [hid, List.map_id, reassemble_chunkList size overlap h]

/-- Witness for C4 at chunk_size 3, overlap 1, page text "abcde". -/
theorem chunker_roundtrip_witness :
    1 < 3 ∧ reassembleText 1 (chunkText 3 1 "abcde") = "abcde" :=
  ⟨by decide, chunker_roundtrip 3 1 "abcde" (by decide)⟩

/-! ## Document loader -/

/-- Modelled from the spec: PDF parsing is delegated to the external
PyPDFLoader library.  Spec section 4.1: the loader yields the ordered
page texts of the document, an empty string for a page with no
extractable text.  A PDF document is abstracted as its list of pages,
each carrying its extractable text or none. -/
def loadDocuments (pdf : List (Option String)) : List String :=
  pdf.map (fun p => p.getD "")

/-- The load stage of process_pdf (src/app.py lines 128-139): run the
loader, then fail with the UnreadableDocument message when the loader
yielded no pages at all. -/
def loadPDF (pdf : List (Option String)) : Except String (List String) :=
  let documents := loadDocuments pdf
  if documents.isEmpty then Except.error "PDF could not be read or is empty"
  else Except.ok documents

/-- C5: a document yielding zero pages fails with the UnreadableDocument
message; a document with N ≥ 1 pages loads successfully into exactly N
page entries in original order, pages without extractable text becoming
empty strings rather than failures. -/
theorem loadPDF_spec (pdf : List (Option String)) :
    (pdf = [] → loadPDF pdf = Except.error "PDF could not be read or is empty")
    ∧ (pdf ≠ [] → loadPDF pdf = Except.ok (pdf.map (fun p => p.getD ""))) := by
  constructor
  · intro h
    subst h
    rfl
  · intro h
    unfold loadPDF loadDocuments
    rw [if_neg]
    simpa [List.isEmpty_iff] using h

/-- Witness for C5 on a two-page document whose second page has no
extractable text, and on the empty document. -/
theorem loadPDF_spec_witness :
    loadPDF [some "alpha", none] = Except.ok ["alpha", ""]
    ∧ loadPDF [] = Except.error "PDF could not be read or is empty" :=
  ⟨(loadPDF_spec [some "alpha", none]).2 (by decide), (loadPDF_spec []).1 rfl⟩

/-! ## Embedder loader (load_embeddings, src/app.py lines 113-119) -/

/-- State of the st.cache_resource cell wrapping load_embeddings:
`cache` is none before the first call and afterwards holds the return
value of the first call (the HuggingFaceEmbeddings model, abstracted as a Nat
handle, or none when the constructor raised and the except branch
returned None).  `attempts` counts how many times the model constructor
has actually been invoked. -/
structure EmbCacheState where
  cache : Option (Option Nat)
  attempts : Nat
deriving DecidableEq

/-- load_embeddings under st.cache_resource: a cached value (even a
cached None) is returned without rerunning the body; otherwise the body
runs once — `env n` is the outcome of the (n+1)-th constructor
invocation, none when it raises (the exception is caught, an error is
shown and None is returned) — and its return value is cached. -/
def load_embeddings (env : Nat → Option Nat) (s : EmbCacheState) :
    Option Nat × EmbCacheState :=
  match s.cache with
  | some r => (r, s)
  | none =>
      let r := env s.attempts
      (r, ⟨some r, s.attempts + 1⟩)

/-- Counterexample to C2: a first load failure is cached.  With an
environment whose first constructor call fails and whose second would
succeed, the second load_embeddings call still returns the cached
failure and performs no new initialization attempt (attempts stays 1),
whereas the claim requires the second call to re-attempt. -/
theorem load_embeddings_failure_is_cached :
    (load_embeddings (fun n => if n = 0 then none else some 7)
        (load_embeddings (fun n => if n = 0 then none else some 7) ⟨none, 0⟩).2).1 = none
    ∧ (load_embeddings (fun n => if n = 0 then none else some 7)
        (load_embeddings (fun n => if n = 0 then none else some 7) ⟨none, 0⟩).2).2.attempts = 1 :=
  ⟨rfl, rfl⟩

/-- C2 amended: a first-call load failure is reported and its None
result is cached by st.cache_resource; every subsequent call returns
the cached failure without re-attempting initialization. -/
theorem load_embeddings_caches_failure (env : Nat → Option Nat) (s : EmbCacheState)
    (h0 : s.cache = none) (hfail : env s.attempts = none) :
    (load_embeddings env s).1 = none
    ∧ (load_embeddings env s).2.cache = some none
    ∧ ∀ s2 : EmbCacheState, s2.cache = some none → load_embeddings env s2 = (none, s2) := by
  refine ⟨?_, ?_, ?_⟩
  · simp [load_embeddings, h0, hfail]
  · simp [load_embeddings, h0, hfail]
  · intro s2 h2
    simp [load_embeddings, h2]

/-- Witness for the amended C2 theorem: first call fails, gets cached,
and a state holding a cached failure returns it unchanged. -/
theorem load_embeddings_caches_failure_witness :
    (load_embeddings (fun _ => none) ⟨none, 0⟩).1 = none
    ∧ (load_embeddings (fun _ => none) ⟨none, 0⟩).2.cache = some none
    ∧ ∀ s2 : EmbCacheState, s2.cache = some none →
        load_embeddings (fun _ => none) s2 = (none, s2) :=
  load_embeddings_caches_failure (fun _ => none) ⟨none, 0⟩ rfl rfl

/-! ## process_pdf (src/app.py lines 121-158) -/

/-- Outcome of the PyPDFLoader.load() call: either it raises (invalid
PDF) or it yields the ordered page documents. -/
inductive LoadOutcome where
  | raises (msg : String)
  | pages (docs : List String)
deriving DecidableEq

/-- Result of process_pdf: the returned vectorstore (modelled by its
list of chunk texts) or none, the returned status message, and whether
the temporary staging file written for the uploaded bytes is still on
disk when process_pdf returns. -/
structure ProcessResult where
  vectorstore : Option (List String)
  message : String
  tempFileRemains : Bool
deriving DecidableEq

/-- process_pdf: stage the uploaded bytes in a temporary file
(delete=False), load the PDF, unlink the temporary file, reject an
empty document list, split the documents (chunk_size 1000, overlap
100), load the embedder, build the FAISS store.  Any raise is caught by
the enclosing except and converted to an error return.  The os.unlink
at line 134 runs only after loader.load() has returned, so when the
load raises, the handler returns with the staging file still on disk
(tempFileRemains = true). -/
def process_pdf (load : LoadOutcome) (emb : Option Nat) (faissRaises : Bool) :
    ProcessResult :=
  match load with
  | LoadOutcome.raises msg =>
      { vectorstore := none
        message := "Error processing PDF: " ++ msg
        tempFileRemains := true }
  | LoadOutcome.pages documents =>
      if documents.isEmpty then
        { vectorstore := none
          message := "PDF could not be read or is empty"
          tempFileRemains := false }
      else
        let docs := (documents.map (chunkText 1000 100)).flatten
        match emb with
        | none =>
            { vectorstore := none
              message := "Failed to load embeddings model"
              tempFileRemains := false }
        | some _ =>
            if faissRaises then
              { vectorstore := none
                message := "Error processing PDF: could not build vector store"
                tempFileRemains := false }
            else
              { vectorstore := some docs
                message := "Successfully processed " ++ toString documents.length
                  ++ " pages with " ++ toString docs.length ++ " chunks!"
                tempFileRemains := false }

/-- C3 is violated at this input: when PyPDFLoader.load raises on
invalid PDF bytes, process_pdf returns an error with the temporary
staging file still on disk — the cleanup at line 134 is unreachable on
that failure path. -/
theorem process_pdf_leaks_temp_on_load_failure :
    (process_pdf (LoadOutcome.raises "invalid PDF") (some 0) false).tempFileRemains = true
    ∧ (process_pdf (LoadOutcome.raises "invalid PDF") (some 0) false).vectorstore = none :=
  ⟨rfl, rfl⟩

/-! ## Vector index search -/

/-- Modelled from the spec: nearest-neighbour search is delegated to
the external FAISS library.  Spec section 4.4 specifies similarity
search under a fixed metric; L2 distance is used here, on
integer-scaled vectors, negated so that larger similarity means
closer. -/
def similarity (q v : List Int) : Int :=
  -(((q.zip v).map (fun p => (p.1 - p.2) * (p.1 - p.2))).sum)

/-- Modelled from the spec: the vector store owns the (vector, passage)
pairs of one processed document. -/
structure VectorIndex where
  entries : List (List Int × String)

/-- Pair every entry with its original position. -/
def withIdx {α : Type} (l : List α) : List (Nat × α) :=
  (List.range l.length).zip l

/-- Ranking relation for search results: better similarity first, ties
broken by original passage position (stable). -/
def entryRank (q : List Int) (a b : Nat × (List Int × String)) : Prop :=
  similarity q b.2.1 < similarity q a.2.1
  ∨ (similarity q a.2.1 = similarity q b.2.1 ∧ a.1 ≤ b.1)

instance (q : List Int) : DecidableRel (entryRank q) := fun a b => by
  unfold entryRank
  exact inferInstance

instance (q : List Int) : IsTotal (Nat × (List Int × String)) (entryRank q) := ⟨by
  intro a b
  unfold entryRank
  rcases lt_trichotomy (similarity q a.2.1) (similarity q b.2.1) with h | h | h
  · exact Or.inr (Or.inl h)
  · rcases Nat.le_total a.1 b.1 with h2 | h2
    · exact Or.inl (Or.inr ⟨h, h2⟩)
    · exact Or.inr (Or.inr ⟨h.symm, h2⟩)
  · exact Or.inl (Or.inl h)⟩

instance (q : List Int) : IsTrans (Nat × (List Int × String)) (entryRank q) := ⟨by
  intro a b c hab hbc
  unfold entryRank at hab hbc ⊢
  rcases hab with h1 | ⟨e1, l1⟩ <;> rcases hbc with h2 | ⟨e2, l2⟩
  · left; omega
  · left; omega
  · left; omega
  · exact Or.inr ⟨e1.trans e2, le_trans l1 l2⟩⟩

/-- Modelled from the spec: search returns the k stored entries whose
vectors are closest to the query vector, best-first, ties broken by
original passage order.  The whole store is stably sorted by rank and
the first k entries are kept. -/
def searchIdx (idx : VectorIndex) (q : List Int) (k : Nat) :
    List (Nat × (List Int × String)) :=
  (List.insertionSort (entryRank q) (withIdx idx.entries)).take k

/-- similarity_search: the ranked matching passages with their
scores. -/
def search (idx : VectorIndex) (q : List Int) (k : Nat) : List (String × Int) :=
  (searchIdx idx q k).map (fun e => (e.2.2, similarity q e.2.1))

theorem withIdx_length {α : Type} (l : List α) : (withIdx l).length = l.length := by
  simp [withIdx]

theorem withIdx_map_fst {α : Type} (l : List α) :
    (withIdx l).map Prod.fst = List.range l.length := by
  apply List.map_fst_zip
  simp

theorem withIdx_map_snd {α : Type} (l : List α) :
    (withIdx l).map Prod.snd = l := by
  apply List.map_snd_zip
  simp

/-- The stably sorted full result list: a permutation of the indexed
entries, sorted by rank, with pairwise-distinct original positions. -/
theorem sortRank_facts (entries : List (List Int × String)) (q : List Int) :
    (List.insertionSort (entryRank q) (withIdx entries)).Pairwise
      (fun a b => similarity q b.2.1 < similarity q a.2.1
        ∨ (similarity q a.2.1 = similarity q b.2.1 ∧ a.1 < b.1)) := by
  have hs : (List.insertionSort (entryRank q) (withIdx entries)).Pairwise (entryRank q) :=
    List.sorted_insertionSort (entryRank q) (withIdx entries)
  have hperm : List.Perm (List.insertionSort (entryRank q) (withIdx entries))
      (withIdx entries) :=
    List.perm_insertionSort (entryRank q) (withIdx entries)
  have hnodup : ((List.insertionSort (entryRank q) (withIdx entries)).map Prod.fst).Nodup := by
    have h1 : ((withIdx entries).map Prod.fst).Nodup := by
      rw [withIdx_map_fst]
      exact List.nodup_range _
    exact (hperm.map Prod.fst).symm.nodup h1
  rw [List.Nodup, List.pairwise_map] at hnodup
  refine (hs.and hnodup).imp ?_
  rintro a b ⟨hr, hne⟩
  rcases hr with h | ⟨he, hle⟩
  · exact Or.inl h
  · exact Or.inr ⟨he, lt_of_le_of_ne hle hne⟩

/-- C6: search over a store of M passages with limit k returns
min(M, k) results; on an empty store it returns the empty list rather
than failing; the ranked list is ordered by descending similarity with
ties broken by original passage order; and when M ≤ k every stored
passage is returned. -/
theorem search_spec (entries : List (List Int × String)) (q : List Int) (k : Nat) :
    (search ⟨entries⟩ q k).length = min entries.length k
    ∧ (entries = [] → search ⟨entries⟩ q k = [])
    ∧ (searchIdx ⟨entries⟩ q k).Pairwise
        (fun a b => similarity q b.2.1 < similarity q a.2.1
          ∨ (similarity q a.2.1 = similarity q b.2.1 ∧ a.1 < b.1))
    ∧ (search ⟨entries⟩ q k).map Prod.snd
        = (searchIdx ⟨entries⟩ q k).map (fun e => similarity q e.2.1)
    ∧ (entries.length ≤ k →
        List.Perm ((search ⟨entries⟩ q k).map Prod.fst) (entries.map Prod.snd)) := by
  refine ⟨?_, ?_, ?_, ?_, ?_⟩
  · simp [search, searchIdx, withIdx_length, Nat.min_comm]
  · intro h
    subst h
    simp [search, searchIdx, withIdx]
  · exact List.Pairwise.sublist (List.take_sublist k _) (sortRank_facts entries q)
  · simp [search]
  · intro hk
    have hlen : (List.insertionSort (entryRank q) (withIdx entries)).length ≤ k := by
      rw [List.length_insertionSort, withIdx_length]
      exact hk
    have htake : searchIdx ⟨entries⟩ q k
        = List.insertionSort (entryRank q) (withIdx entries) := by
      unfold searchIdx
      exact List.take_of_length_le hlen
    have hperm : List.Perm (List.insertionSort (entryRank q) (withIdx entries))
        (withIdx entries) :=
      List.perm_insertionSort (entryRank q) (withIdx entries)
    have h1 : (search ⟨entries⟩ q k).map Prod.fst
        = (List.insertionSort (entryRank q) (withIdx entries)).map
            (fun e : Nat × (List Int × String) => e.2.2) := by
      unfold search
      rw [htake, List.map_map]
      rfl
    have h2 : List.Perm
        ((List.insertionSort (entryRank q) (withIdx entries)).map
          (fun e : Nat × (List Int × String) => e.2.2))
        ((withIdx entries).map (fun e : Nat × (List Int × String) => e.2.2)) :=
      hperm.map _
    have h3 : (withIdx entries).map (fun e : Nat × (List Int × String) => e.2.2)
        = entries.map Prod.snd := by
      have h4 : (withIdx entries).map (fun e : Nat × (List Int × String) => e.2.2)
          = ((withIdx entries).map Prod.snd).map Prod.snd := by
        rw [List.map_map]
        rfl
      rw [h4, withIdx_map_snd]
    rw [h1]
    exact h3 ▸ h2

/-- Witness for C6 on a concrete three-entry store with a tie, limit
larger than the store. -/
theorem search_spec_witness :
    (search ⟨[([0], "a"), ([3], "b"), ([0], "c")]⟩ [0] 5).length
        = min ([([0], "a"), ([3], "b"), ([0], "c")] : List (List Int × String)).length 5
    ∧ (([([0], "a"), ([3], "b"), ([0], "c")] : List (List Int × String)).length ≤ 5 →
        List.Perm ((search ⟨[([0], "a"), ([3], "b"), ([0], "c")]⟩ [0] 5).map Prod.fst)
          (([([0], "a"), ([3], "b"), ([0], "c")] : List (List Int × String)).map Prod.snd)) :=
  ⟨(search_spec [([0], "a"), ([3], "b"), ([0], "c")] [0] 5).1,
    (search_spec [([0], "a"), ([3], "b"), ([0], "c")] [0] 5).2.2.2.2⟩

inductive Role where
  | user
  | assistant
deriving DecidableEq

/-- One chat-history entry appended to st.session_state.messages. -/
structure Turn where
  role : Role
  content : String
deriving DecidableEq

/-- Per-session state: st.session_state.vectorstore (the built index,
modelled by its chunk texts, or none) and st.session_state.messages. -/
structure AppState where
  vectorstore : Option (List String)
  messages : List Turn
deriving DecidableEq

/-- Initial session state (lines 165-168). -/
def initState : AppState := { vectorstore := none, messages := [] }

/-- What the UI surfaces for one button handler run. -/
inductive Notice where
  | success (msg : String)
  | errorMsg (msg : String)
  | warning (msg : String)
  | info (msg : String)
  | silent
deriving DecidableEq

/-- The Process PDF button handler (lines 208-215): run process_pdf;
only on success is st.session_state.vectorstore overwritten; on failure
the error message is shown and the session state is untouched. -/
def processClick (s : AppState) (load : LoadOutcome) (emb : Option Nat)
    (faissRaises : Bool) : AppState × Notice :=
  let r := process_pdf load emb faissRaises
  match r.vectorstore with
  | some vs => ({ s with vectorstore := some vs }, Notice.success r.message)
  | none => (s, Notice.errorMsg r.message)

/-- Truncation of one matched chunk for display (lines 240-242). -/
def truncateContent (c : String) : String :=
  if c.length > 300 then c.take 300 ++ "..." else c

/-- The assistant answer assembled from the matched chunks
(lines 238-243). -/
def buildAnswer (docs : List String) : String :=
  "Found relevant information:\n\n"
    ++ String.join (docs.enum.map (fun e =>
        "Source " ++ toString (e.1 + 1) ++ ":\n"
          ++ truncateContent e.2.trim ++ "\n\n"))

/-- The Ask Question button handler.  When no index is built the Q&A
section is not rendered at all (line 218) and the no-index info notice
is shown instead (line 279), so the query is rejected without invoking
the search (and hence without embedding the query text).  Otherwise
similarity_search runs (its outcome abstracted as searchRes: an
exception message or the matched chunks); an exception or an empty
match list surfaces a notice and leaves the transcript unmodified, and
a non-empty match list appends one user turn then one assistant turn
(lines 230-250).  The Bool records whether the search — and with it the
embedder on the query text — was invoked. -/
def askClick (s : AppState) (question : String)
    (searchRes : Except String (List String)) : AppState × Notice × Bool :=
  match s.vectorstore with
  | none => (s, Notice.info "Getting Started: Upload a PDF file to begin!", false)
  | some _ =>
      match searchRes with
      | Except.error e => (s, Notice.errorMsg ("Search error: " ++ e), true)
      | Except.ok docs =>
          if docs.isEmpty then
            (s, Notice.warning "No relevant information found!", true)
          else
            ({ s with messages := s.messages
                ++ [{ role := Role.user, content := question },
                    { role := Role.assistant, content := buildAnswer docs }] },
              Notice.silent, true)

/-- The Clear Chat button handler (lines 252-255): only enabled when
the transcript is non-empty; empties the transcript and nothing else. -/
def clearClick (s : AppState) : AppState :=
  if s.messages.isEmpty then s else { s with messages := [] }

/-- clearClick always leaves the session with an empty transcript and
everything else untouched. -/
theorem clearClick_eq (s : AppState) : clearClick s = { s with messages := [] } := by
  unfold clearClick
  split
  · rename_i hm
    obtain ⟨vs, msgs⟩ := s
    simp only [List.isEmpty_iff] at hm
    simp [hm]
  · rfl

/-- Counterexample to C1: a session holding a previously built index
keeps it after a failed re-process — the claim that the session then
holds no index is false.  Concrete input: prior index present, new
upload whose PDF load raises. -/
theorem failed_reprocess_keeps_index :
    ¬ (processClick { vectorstore := some ["prior chunk"], messages := [] }
        (LoadOutcome.raises "bad PDF") (some 0) false).1.vectorstore = none := by
  intro h
  exact Option.noConfusion h

/-- C1 amended: st.session_state.vectorstore is overwritten only when
process_pdf succeeds (line 211-212), so if any stage of a re-process
fails, the session still holds the prior index, unchanged. -/
theorem failed_reprocess_preserves_index (s : AppState) (idx : List String)
    (h : s.vectorstore = some idx) (load : LoadOutcome) (emb : Option Nat)
    (faissRaises : Bool)
    (hfail : (process_pdf load emb faissRaises).vectorstore = none) :
    (processClick s load emb faissRaises).1.vectorstore = some idx := by
  unfold processClick
  simp only [hfail]
  exact h

/-- Witness for the amended C1 theorem at a concrete failing upload. -/
theorem failed_reprocess_preserves_index_witness :
    ({ vectorstore := some ["p"], messages := [] } : AppState).vectorstore = some ["p"]
    ∧ (process_pdf (LoadOutcome.raises "bad") (some 0) false).vectorstore = none
    ∧ (processClick { vectorstore := some ["p"], messages := [] }
        (LoadOutcome.raises "bad") (some 0) false).1.vectorstore = some ["p"] :=
  ⟨rfl, rfl,
    failed_reprocess_preserves_index { vectorstore := some ["p"], messages := [] }
      ["p"] rfl (LoadOutcome.raises "bad") (some 0) false rfl⟩

/-- C7: in the Ready state, a query whose search raises, and a query
with zero matches, each surface a notice and leave the session state —
in particular the transcript — unmodified: no user turn and no
assistant turn is appended. -/
theorem query_failure_leaves_transcript (s : AppState) (idx : List String)
    (h : s.vectorstore = some idx) (q e : String) :
    askClick s q (Except.error e)
      = (s, Notice.errorMsg ("Search error: " ++ e), true)
    ∧ askClick s q (Except.ok [])
      = (s, Notice.warning "No relevant information found!", true) := by
  obtain ⟨vs, msgs⟩ := s
  change vs = some idx at h
  subst h
  exact ⟨rfl, rfl⟩

/-- Witness for C7 in a concrete Ready-state session. -/
theorem query_failure_leaves_transcript_witness :
    ({ vectorstore := some ["p"], messages := [] } : AppState).vectorstore = some ["p"]
    ∧ askClick { vectorstore := some ["p"], messages := [] } "q" (Except.error "boom")
        = ({ vectorstore := some ["p"], messages := [] },
            Notice.errorMsg ("Search error: " ++ "boom"), true)
    ∧ askClick { vectorstore := some ["p"], messages := [] } "q" (Except.ok [])
        = ({ vectorstore := some ["p"], messages := [] },
            Notice.warning "No relevant information found!", true) :=
  ⟨rfl,
    (query_failure_leaves_transcript { vectorstore := some ["p"], messages := [] }
      ["p"] rfl "q" "boom").1,
    (query_failure_leaves_transcript { vectorstore := some ["p"], messages := [] }
      ["p"] rfl "q" "boom").2⟩

/-- C8: in the Ready state, clearing makes the transcript empty while
leaving the index unchanged, and a subsequent successful query against
the same index still succeeds, appending its user and assistant turns. -/
theorem clear_empties_transcript_keeps_index (s : AppState) (idx : List String)
    (h : s.vectorstore = some idx) (q : String) (docs : List String)
    (hd : docs ≠ []) :
    (clearClick s).messages = []
    ∧ (clearClick s).vectorstore = some idx
    ∧ (askClick (clearClick s) q (Except.ok docs)).1.messages
        = [{ role := Role.user, content := q },
           { role := Role.assistant, content := buildAnswer docs }]
    ∧ (askClick (clearClick s) q (Except.ok docs)).2.1 = Notice.silent := by
  rw [clearClick_eq]
  obtain ⟨vs, msgs⟩ := s
  change vs = some idx at h
  subst h
  refine ⟨rfl, rfl, ?_, ?_⟩ <;>
    simp [askClick, hd]

/-- A concrete Ready-state session after one completed query turn,
used by witnesses. -/
def sampleReadyState : AppState :=
  { vectorstore := some ["p"]
    messages := [{ role := Role.user, content := "a" },
                 { role := Role.assistant, content := "b" }] }

/-- Witness for C8: clear after query turns, then ask again. -/
theorem clear_empties_transcript_keeps_index_witness :
    sampleReadyState.vectorstore = some ["p"]
    ∧ (["d"] : List String) ≠ []
    ∧ (clearClick sampleReadyState).messages = []
    ∧ (clearClick sampleReadyState).vectorstore = some ["p"]
    ∧ (askClick (clearClick sampleReadyState) "q" (Except.ok ["d"])).1.messages
        = [{ role := Role.user, content := "q" },
           { role := Role.assistant, content := buildAnswer ["d"] }]
    ∧ (askClick (clearClick sampleReadyState) "q" (Except.ok ["d"])).2.1
        = Notice.silent := by
  have h := clear_empties_transcript_keeps_index sampleReadyState
    ["p"] rfl "q" ["d"] (by decide)
  exact ⟨rfl, by decide, h.1, h.2.1, h.2.2.1, h.2.2.2⟩

/-- C9: in the Empty state (no index built) a question is rejected with
the no-index notice, the session state is unchanged, and the search —
hence the embedder on the query text — is never invoked. -/
theorem empty_session_rejects_query (s : AppState) (h : s.vectorstore = none)
    (q : String) (searchRes : Except String (List String)) :
    askClick s q searchRes
      = (s, Notice.info "Getting Started: Upload a PDF file to begin!", false) := by
  obtain ⟨vs, msgs⟩ := s
  change vs = none at h
  subst h
  rfl

/-- Witness for C9 on the initial session state. -/
theorem empty_session_rejects_query_witness :
    initState.vectorstore = none
    ∧ askClick initState "q" (Except.ok ["d"])
      = (initState, Notice.info "Getting Started: Upload a PDF file to begin!", false) :=
  ⟨rfl, empty_session_rejects_query initState rfl "q" (Except.ok ["d"])⟩

/-! ## Transcript alternation invariant -/

/-- One user interaction with the session: a Process PDF click (with
the outcomes of the staged pipeline), an Ask Question click (with the
outcome of the search), or a Clear Chat click. -/
inductive Op where
  | process (load : LoadOutcome) (emb : Option Nat) (faissRaises : Bool)
  | ask (question : String) (searchRes : Except String (List String))
  | clear

/-- The session-state effect of one interaction. -/
def step (s : AppState) : Op → AppState
  | Op.process load emb faissRaises => (processClick s load emb faissRaises).1
  | Op.ask q searchRes => (askClick s q searchRes).1
  | Op.clear => clearClick s

/-- The transcript strictly alternates a user turn then an assistant
turn, starting with a user turn — which forces even length. -/
def alternating : List Turn → Prop
  | [] => True
  | [_] => False
  | t1 :: t2 :: rest => t1.role = Role.user ∧ t2.role = Role.assistant ∧ alternating rest

theorem alternating_append (q a : String) :
    ∀ l : List Turn, alternating l →
      alternating (l ++ [{ role := Role.user, content := q },
                         { role := Role.assistant, content := a }])
  | [], _ => ⟨rfl, rfl, trivial⟩
  | [_], h => h.elim
  | _ :: _ :: rest, h => ⟨h.1, h.2.1, alternating_append q a rest h.2.2⟩

theorem alternating_length : ∀ l : List Turn, alternating l → l.length % 2 = 0
  | [], _ => rfl
  | [_], h => h.elim
  | _ :: _ :: rest, h => by
      have ih := alternating_length rest h.2.2
      simp only [List.length_cons]
      omega

theorem step_preserves_alternating (s : AppState) (op : Op)
    (h : alternating s.messages) : alternating (step s op).messages := by
  cases op with
  | process load emb faissRaises =>
      simp only [step, processClick]
      split
      · exact h
      · exact h
  | ask q searchRes =>
      simp only [step, askClick]
      split
      · exact h
      · split
        · exact h
        · split
          · exact h
          · exact alternating_append q _ s.messages h
  | clear =>
      rw [step, clearClick_eq]
      trivial

theorem step_messages_shape (s : AppState) (op : Op) :
    (step s op).messages = s.messages
    ∨ (step s op).messages = []
    ∨ ∃ q a : String, (step s op).messages
        = s.messages ++ [{ role := Role.user, content := q },
                         { role := Role.assistant, content := a }] := by
  cases op with
  | process load emb faissRaises =>
      left
      simp only [step, processClick]
      split <;> rfl
  | ask q searchRes =>
      simp only [step, askClick]
      split
      · left; rfl
      · split
        · left; rfl
        · split
          · left; rfl
          · rename_i docs hd
            right; right
            exact ⟨q, buildAnswer docs, rfl⟩
  | clear =>
      right; left
      rw [step, clearClick_eq]

theorem foldl_preserves_alternating (ops : List Op) (s : AppState)
    (h : alternating s.messages) : alternating ((ops.foldl step s).messages) := by
  induction ops generalizing s with
  | nil => exact h
  | cons op rest ih => exact ih (step s op) (step_preserves_alternating s op h)

/-- C10: after any sequence of upload, query and clear interactions
starting from the initial session, the transcript has even length and
strictly alternates user then assistant turns starting with a user
turn; moreover no single interaction changes the transcript other than
leaving it unchanged, emptying it, or appending exactly one user turn
immediately followed by one assistant turn. -/
theorem transcript_alternation_invariant (ops : List Op) :
    alternating ((ops.foldl step initState).messages)
    ∧ ((ops.foldl step initState).messages).length % 2 = 0
    ∧ ∀ (s : AppState) (op : Op),
        (step s op).messages = s.messages
        ∨ (step s op).messages = []
        ∨ ∃ q a : String, (step s op).messages
            = s.messages ++ [{ role := Role.user, content := q },
                             { role := Role.assistant, content := a }] :=
  ⟨foldl_preserves_alternating ops initState trivial,
    alternating_length _ (foldl_preserves_alternating ops initState trivial),
    fun s op => step_messages_shape s op⟩
